import Mathlib

/-!
Verification of the ac-mon room monitor: a shallow embedding of the
session-protocol layer (`src/ac_coms.rs`), the room record (`src/lib.rs`)
and the per-room supervisor loop (`src/main.rs`), together with theorems
settling the specification claims about them.

Machine integers and timestamps are modelled as `Nat`; the `json` crate's
value type and parser are modelled by the `Json` inductive and `jsonParse`
below; Rust panics are modelled as explicit outcomes of the embedded
functions.
-/

/-- Model of the `json` crate's `JsonValue`: the dynamically typed JSON
values the wire protocol is decoded into. Objects keep their fields as an
association list in document order. -/
inductive Json where
  | null : Json
  | bool (b : Bool) : Json
  | num (n : Int) : Json
  | str (s : String) : Json
  | arr (elems : List Json) : Json
  | obj (fields : List (String × Json)) : Json

/-- Model of `json::object::Object::get`: look a key up in an object's
field list. -/
def oGet (o : List (String × Json)) (k : String) : Option Json :=
  match o with
  | [] => none
  | (k', v) :: rest => if k' = k then some v else oGet rest k

/-- Model of the `json` crate's `JsonValue == &str` comparison: true
exactly on a JSON string with that content. -/
def jsonEqStr (j : Json) (s : String) : Bool :=
  match j with
  | Json.str t => t == s
  | _ => false

/-- Model of `JsonValue::as_str`: `some` exactly on JSON strings. -/
def Json.asStr : Json → Option String
  | Json.str s => some s
  | _ => none

/-- Whether a JSON value is an object (`JsonValue::Object`). -/
def Json.isObj : Json → Bool
  | Json.obj _ => true
  | _ => false

/-- Skip JSON whitespace. -/
def skipWs : List Char → List Char
  | [] => []
  | c :: cs => if c = ' ' ∨ c = '\t' ∨ c = '\n' ∨ c = '\r' then skipWs cs else c :: cs

/-- Decode one character of a JSON string escape sequence. -/
def escChar (d : Char) : Option Char :=
  if d = '"' then some '"'
  else if d = '\\' then some '\\'
  else if d = '/' then some '/'
  else if d = 'n' then some '\n'
  else if d = 't' then some '\t'
  else if d = 'r' then some '\r'
  else none

/-- Parse the remainder of a JSON string literal (the opening quote already
consumed): returns the decoded characters and the rest of the input. The
fuel argument only bounds the recursion depth. -/
def parseStrRest : Nat → List Char → Option (List Char × List Char)
  | 0, _ => none
  | Nat.succ _, [] => none
  | Nat.succ fuel, c :: cs =>
    if c = '"' then some ([], cs)
    else if c = '\\' then
      match cs with
      | [] => none
      | d :: ds =>
        match escChar d with
        | none => none
        | some ch =>
          match parseStrRest fuel ds with
          | some (out, rem) => some (ch :: out, rem)
          | none => none
    else
      match parseStrRest fuel cs with
      | some (out, rem) => some (c :: out, rem)
      | none => none

/-- Numeric value of a list of decimal digits. -/
def digitsToNat (ds : List Char) : Nat :=
  ds.foldl (fun acc c => acc * 10 + (c.toNat - 48)) 0

mutual

/-- Fuel-indexed recursive-descent parser for one JSON value, modelling
`json::parse`. Returns the value and the unconsumed input. -/
def parseVal : Nat → List Char → Option (Json × List Char)
  | 0, _ => none
  | Nat.succ fuel, cs =>
    match skipWs cs with
    | [] => none
    | c :: rest =>
      if c = 'n' then
        match rest with
        | 'u' :: 'l' :: 'l' :: r => some (Json.null, r)
        | _ => none
      else if c = 't' then
        match rest with
        | 'r' :: 'u' :: 'e' :: r => some (Json.bool true, r)
        | _ => none
      else if c = 'f' then
        match rest with
        | 'a' :: 'l' :: 's' :: 'e' :: r => some (Json.bool false, r)
        | _ => none
      else if c = '"' then
        match parseStrRest fuel rest with
        | some (out, r) => some (Json.str (String.mk out), r)
        | none => none
      else if c = '-' then
        match rest.takeWhile Char.isDigit with
        | [] => none
        | ds => some (Json.num (-(Int.ofNat (digitsToNat ds))), rest.dropWhile Char.isDigit)
      else if c.isDigit then
        some (Json.num (Int.ofNat (digitsToNat ((c :: rest).takeWhile Char.isDigit))),
              (c :: rest).dropWhile Char.isDigit)
      else if c = '[' then
        match skipWs rest with
        | ']' :: r => some (Json.arr [], r)
        | _ =>
          match parseElems fuel rest with
          | some (vs, r) => some (Json.arr vs, r)
          | none => none
      else if c = '\x7b' then
        match skipWs rest with
        | '\x7d' :: r => some (Json.obj [], r)
        | _ =>
          match parseMembers fuel rest with
          | some (fs, r) => some (Json.obj fs, r)
          | none => none
      else none

/-- Parse the comma-separated elements of a non-empty JSON array, up to and
including the closing bracket. -/
def parseElems : Nat → List Char → Option (List Json × List Char)
  | 0, _ => none
  | Nat.succ fuel, cs =>
    match parseVal fuel cs with
    | none => none
    | some (v, r) =>
      match skipWs r with
      | ',' :: r2 =>
        match parseElems fuel r2 with
        | some (vs, r3) => some (v :: vs, r3)
        | none => none
      | ']' :: r2 => some ([v], r2)
      | _ => none

/-- Parse the members of a non-empty JSON object, up to and including the
closing brace. -/
def parseMembers : Nat → List Char → Option (List (String × Json) × List Char)
  | 0, _ => none
  | Nat.succ fuel, cs =>
    match skipWs cs with
    | '"' :: rest =>
      match parseStrRest fuel rest with
      | none => none
      | some (kcs, r) =>
        match skipWs r with
        | ':' :: r2 =>
          match parseVal fuel r2 with
          | none => none
          | some (v, r3) =>
            match skipWs r3 with
            | ',' :: r4 =>
              match parseMembers fuel r4 with
              | some (fs, r5) => some ((String.mk kcs, v) :: fs, r5)
              | none => none
            | '\x7d' :: r4 => some ([(String.mk kcs, v)], r4)
            | _ => none
        | _ => none
    | _ => none

end

/-- Model of `json::parse`: parse a whole string as one JSON value,
rejecting trailing garbage. -/
def jsonParse (s : String) : Option Json :=
  match parseVal (2 * s.length + 2) s.toList with
  | some (j, r) => if skipWs r = [] then some j else none
  | none => none

/-- `Status` from `src/lib.rs`: the room status enumeration. -/
inductive Status where
  | Open : Status
  | Closed : Status
  | Blocked : Status
  | Pending : Status
deriving DecidableEq, Repr

/-- `DbEntry` from `src/lib.rs`, restricted to its mutable fields: the
status (`self.1`) and the last-changed timestamp (`self.2`, modelled as a
`Nat` of milliseconds). The static `Class` metadata and the `RwLock`
wrappers play no role in the claims and are omitted. -/
structure DbEntry where
  status : Status
  lastChanged : Nat
deriving DecidableEq, Repr

/-- `DbEntry::set_status` from `src/lib.rs`: the code takes the write lock
on the status field and overwrites it with `new_status`; it does not touch
the timestamp field. -/
def DbEntry.set_status (e : DbEntry) (new_status : Status) : DbEntry :=
  { e with status := new_status }

/-- `CommError` from `src/ac_coms.rs`: the message-interpreter error
taxonomy. -/
inductive CommError where
  | InvalidJson : CommError
  | UnknownCommand : CommError
  | UnknownMethod : CommError
  | MissingName : CommError
  | MissingParams : CommError
  | Empty : CommError
deriving DecidableEq, Repr

/-- `Rpc` from `src/ac_coms.rs`: the interpreter's envelope, carrying the
one domain-relevant command string. -/
structure Rpc where
  cmd : String
deriving DecidableEq, Repr

/-- Outcome of running `Rpc::new`: a parsed envelope, a `CommError`, or a
Rust panic (the `.unwrap()` on `as_str()`). -/
inductive RpcResult where
  | ok (r : Rpc) : RpcResult
  | err (e : CommError) : RpcResult
  | panicked : RpcResult
deriving DecidableEq, Repr

/-- The body of `Rpc::new` from `src/ac_coms.rs` after `json::parse`
succeeded: navigate the decoded value exactly as the code does. The
`as_str().unwrap()` on a present non-string nested command is modelled as
`RpcResult.panicked`. -/
def rpcOfJson (j : Json) : RpcResult :=
  match j with
  | Json.obj o =>
    match oGet o "method" with
    | none => RpcResult.err CommError.UnknownMethod
    | some m =>
      if jsonEqStr m "heartbeat" then RpcResult.ok ⟨"heartbeat"⟩
      else if !(jsonEqStr m "onCommand") then RpcResult.err CommError.UnknownMethod
      else
        match oGet o "command" with
        | none => RpcResult.err CommError.UnknownCommand
        | some c =>
          if !(jsonEqStr c "loginHandler") then RpcResult.err CommError.UnknownCommand
          else
            match oGet o "params" with
            | none => RpcResult.err CommError.MissingParams
            | some p =>
              match p with
              | Json.obj po =>
                match oGet po "arg_0" with
                | none => RpcResult.err CommError.MissingParams
                | some a =>
                  match a with
                  | Json.obj ao =>
                    match oGet ao "command" with
                    | none => RpcResult.err CommError.MissingName
                    | some v =>
                      match v.asStr with
                      | none => RpcResult.panicked
                      | some s => RpcResult.ok ⟨s⟩
                  | _ => RpcResult.err CommError.InvalidJson
              | _ => RpcResult.err CommError.InvalidJson
  | _ => RpcResult.err CommError.InvalidJson

/-- `Rpc::new` from `src/ac_coms.rs`: reject the empty message, parse the
JSON, then extract the command string. -/
def Rpc.new (s : String) : RpcResult :=
  if s.isEmpty then RpcResult.err CommError.Empty
  else
    match jsonParse s with
    | none => RpcResult.err CommError.InvalidJson
    | some j => rpcOfJson j

/-- `Rpc::is_heartbeat` from `src/ac_coms.rs`. -/
def Rpc.is_heartbeat (r : Rpc) : Bool :=
  r.cmd == "heartbeat"

/-- `Rpc::is_timeout` from `src/ac_coms.rs`. -/
def Rpc.is_timeout (r : Rpc) : Bool :=
  r.cmd == "connectionTimedOut"

/-- `Rpc::update` from `src/ac_coms.rs`: the room status transition
function. -/
def Rpc.update (r : Rpc) (status : Status) : Status :=
  match status with
  | Status.Closed | Status.Pending =>
    if r.cmd = "accepted" then Status.Open
    else if r.cmd = "blocked" then Status.Blocked
    else Status.Closed
  | Status.Open => Status.Open
  | Status.Blocked => Status.Blocked


/-- Outcome of `AcSocket::new`'s handshake-response handling in
`src/ac_coms.rs`: the socket is accepted, the `json::parse` error is
propagated by `?`, the `panic!` on a parsed non-object fires, or the
`InitError::UnsuccessfulWs` error is returned. -/
inductive HsOutcome where
  | accepted : HsOutcome
  | errParse : HsOutcome
  | errUnsuccessfulWs : HsOutcome
  | panicked : HsOutcome
deriving DecidableEq, Repr

/-- The `status → code → as_str` navigation chain of `AcSocket::new`:
`status.get("status").and_then(obj.get("code")).and_then(as_str)`. -/
def statusCode (o : List (String × Json)) : Option String :=
  ((oGet o "status").bind (fun x =>
    match x with
    | Json.obj o2 => oGet o2 "code"
    | _ => none)).bind Json.asStr

/-- The handshake-response handling of `AcSocket::new` from
`src/ac_coms.rs`, as a function of the single response message text. -/
def handshakeCheck (resp : String) : HsOutcome :=
  match jsonParse resp with
  | none => HsOutcome.errParse
  | some (Json.obj o) =>
    if statusCode o = some "NetConnection.Connect.Success" then HsOutcome.accepted
    else HsOutcome.errUnsuccessfulWs
  | some _ => HsOutcome.panicked

/-- One transport-level event observed by `AcSocket::listen`: a received
text message (`Some(Ok(_))` from the stream), or a transport error
(`Some(Err(_))`). The stream ending (`None`) is modelled by the event list
running out. -/
inductive TEvent where
  | msg (s : String) : TEvent
  | errFrame : TEvent
deriving DecidableEq, Repr

/-- How `AcSocket::listen` ends: `succeeded` and `failed` are its `true`
and `false` returns; `panicked` models a crash inside `Rpc::new`. -/
inductive ListenOutcome where
  | succeeded : ListenOutcome
  | failed : ListenOutcome
  | panicked : ListenOutcome
deriving DecidableEq, Repr

/-- The loop of `AcSocket::listen` from `src/ac_coms.rs`, driven by the
list of transport events: while the tracked status is `Closed` or
`Pending`, receive the next event and dispatch on `Rpc::new` exactly as
the code does, threading the `DbEntry` through `set_status`. Returns the
loop outcome, the final tracked status, and the final entry. -/
def listenGo : List TEvent → Status → DbEntry → ListenOutcome × Status × DbEntry
  | [], st, e =>
    if st = Status.Closed ∨ st = Status.Pending then (ListenOutcome.failed, st, e)
    else (ListenOutcome.succeeded, st, e)
  | ev :: rest, st, e =>
    if st = Status.Closed ∨ st = Status.Pending then
      match ev with
      | TEvent.errFrame => (ListenOutcome.failed, st, e)
      | TEvent.msg s =>
        match Rpc.new s with
        | RpcResult.err _ => listenGo rest st e
        | RpcResult.panicked => (ListenOutcome.panicked, st, e)
        | RpcResult.ok r =>
          if r.is_heartbeat then listenGo rest st e
          else if r.is_timeout then (ListenOutcome.failed, st, e)
          else
            let st' := r.update st
            listenGo rest st' (e.set_status st')
    else (ListenOutcome.succeeded, st, e)

/-- `AcSocket::listen` from `src/ac_coms.rs`: the loop starts with a local
status of `Pending`. -/
def listen (evs : List TEvent) (e : DbEntry) : ListenOutcome × Status × DbEntry :=
  listenGo evs Status.Pending e

/-- Phase of one room's supervisor in `monitor` from `src/main.rs`:
the initial unprotected credential fetch (line 106), the `AcSocket::new`
call, the listen loop, the inner credential re-acquisition loop
(lines 126-138), the `break` after a failed socket creation, and the panic
of the initial `.unwrap()`. -/
inductive MonPhase where
  | initialAcquire : MonPhase
  | openSession : MonPhase
  | listening : MonPhase
  | reacquire : MonPhase
  | stopped : MonPhase
  | panicked : MonPhase
deriving DecidableEq, Repr

/-- Outcome of the external call a supervisor phase is waiting on:
`RoomParams::from_canvas_slug` succeeding or failing, `AcSocket::new`
succeeding or failing, and `AcSocket::listen` returning true or false. -/
inductive MonEvent where
  | credsOk : MonEvent
  | credsFail : MonEvent
  | openOk : MonEvent
  | openFail : MonEvent
  | listenOk : MonEvent
  | listenFail : MonEvent
deriving DecidableEq, Repr

/-- One step of the supervisor loop of `monitor` from `src/main.rs`:
the next phase together with the number of seconds the code sleeps before
acting again (`15 * 60` after a successful listen, `10` after a failed
re-acquisition, `0` otherwise). `stopped` and `panicked` are absorbing; an
event that cannot occur in a phase leaves the phase unchanged. -/
def monitorStep : MonPhase → MonEvent → MonPhase × Nat
  | MonPhase.initialAcquire, MonEvent.credsOk => (MonPhase.openSession, 0)
  | MonPhase.initialAcquire, MonEvent.credsFail => (MonPhase.panicked, 0)
  | MonPhase.openSession, MonEvent.openOk => (MonPhase.listening, 0)
  | MonPhase.openSession, MonEvent.openFail => (MonPhase.stopped, 0)
  | MonPhase.listening, MonEvent.listenOk => (MonPhase.reacquire, 15 * 60)
  | MonPhase.listening, MonEvent.listenFail => (MonPhase.reacquire, 0)
  | MonPhase.reacquire, MonEvent.credsOk => (MonPhase.openSession, 0)
  | MonPhase.reacquire, MonEvent.credsFail => (MonPhase.reacquire, 10)
  | MonPhase.stopped, _ => (MonPhase.stopped, 0)
  | MonPhase.panicked, _ => (MonPhase.panicked, 0)
  | p, _ => (p, 0)

/-- Run the supervisor over a sequence of external-call outcomes. -/
def monitorRun (p : MonPhase) (evs : List MonEvent) : MonPhase :=
  evs.foldl (fun q ev => (monitorStep q ev).1) p

/-- The steady-state heartbeat message of the wire protocol. -/
def hbWireMsg : String := "\x7b\"method\":\"heartbeat\"\x7d"

/-- A well-formed `onCommand`/`loginHandler` message whose nested command
string is `heartbeat`. -/
def hbNestedMsg : String :=
  "\x7b\"method\":\"onCommand\",\"command\":\"loginHandler\",\"params\":\x7b\"arg_0\":\x7b\"command\":\"heartbeat\"\x7d\x7d\x7d"

/-- The `onCommand`/`loginHandler` message carrying the `accepted` signal. -/
def acceptedMsg : String :=
  "\x7b\"method\":\"onCommand\",\"command\":\"loginHandler\",\"params\":\x7b\"arg_0\":\x7b\"command\":\"accepted\"\x7d\x7d\x7d"

/-- The `onCommand`/`loginHandler` message carrying the terminal
`connectionTimedOut` signal. -/
def timeoutMsg : String :=
  "\x7b\"method\":\"onCommand\",\"command\":\"loginHandler\",\"params\":\x7b\"arg_0\":\x7b\"command\":\"connectionTimedOut\"\x7d\x7d\x7d"

/-- An `onCommand` message whose top-level command is not `loginHandler`. -/
def otherCmdMsg : String := "\x7b\"method\":\"onCommand\",\"command\":\"other\"\x7d"

/-- A well-formed `onCommand`/`loginHandler` message whose nested command
field is present but is a number, not a string. -/
def numCmdMsg : String :=
  "\x7b\"method\":\"onCommand\",\"command\":\"loginHandler\",\"params\":\x7b\"arg_0\":\x7b\"command\":42\x7d\x7d\x7d"


/-- A top-level field of a parsed message, navigated as `Rpc::new` does
with `rpc.get(k)` after `json::parse`. -/
def topField (s k : String) : Option Json :=
  match jsonParse s with
  | some (Json.obj o) => oGet o k
  | _ => none

/-- The nested `params.arg_0.command` field of a message, navigated as
`Rpc::new` does. -/
def nestedCommandField (s : String) : Option Json :=
  match topField s "params" with
  | some (Json.obj po) =>
    match oGet po "arg_0" with
    | some (Json.obj ao) => oGet ao "command"
    | _ => none
  | _ => none

/-- Claim C3: the claim says the listen loop writes the new status and the
current time into the room record together. Evaluating
`DbEntry::set_status` — the only write the listen loop performs — shows it
overwrites the status but leaves the `lastChanged` timestamp untouched,
contradicting the claim and the function's own doc comment. -/
theorem set_status_only_writes_status (e : DbEntry) (s : Status) :
    (e.set_status s).status = s ∧ (e.set_status s).lastChanged = e.lastChanged :=
  ⟨rfl, rfl⟩

/-- Claim C6: from a current status of Pending or Closed, `Rpc::update`
maps the command `accepted` to Open, `blocked` to Blocked, and every other
command string to Closed. -/
theorem update_from_pending_or_closed (r : Rpc) (st : Status)
    (h : st = Status.Pending ∨ st = Status.Closed) :
    r.update st =
      if r.cmd = "accepted" then Status.Open
      else if r.cmd = "blocked" then Status.Blocked
      else Status.Closed := by
  rcases h with h | h <;> subst h <;> rfl

/-- Witness for C6: from Pending, the command `accepted` yields Open. -/
theorem update_from_pending_or_closed_witness :
    (Rpc.mk "accepted").update Status.Pending = Status.Open := by
  have h := update_from_pending_or_closed (Rpc.mk "accepted") Status.Pending (Or.inl rfl)
  simpa using h

/-- Claim C7: Open and Blocked are absorbing — for every command string,
`Rpc::update` maps Open to Open and Blocked to Blocked. -/
theorem update_absorbing (r : Rpc) :
    r.update Status.Open = Status.Open ∧ r.update Status.Blocked = Status.Blocked :=
  ⟨rfl, rfl⟩

/-- Claim C9: the interpreter maps the plain heartbeat message to the
heartbeat envelope, the `onCommand`/`loginHandler`/`accepted` message to
the `accepted` command envelope, fails on the empty string with the
`Empty` (EmptyMessage) error, and fails on an `onCommand` message whose
command is `other` with `UnknownCommand`. -/
theorem rpc_new_round_trip :
    Rpc.new hbWireMsg = RpcResult.ok (Rpc.mk "heartbeat")
    ∧ (Rpc.mk "heartbeat").is_heartbeat = true
    ∧ Rpc.new acceptedMsg = RpcResult.ok (Rpc.mk "accepted")
    ∧ Rpc.new "" = RpcResult.err CommError.Empty
    ∧ Rpc.new otherCmdMsg = RpcResult.err CommError.UnknownCommand :=
  ⟨rfl, rfl, rfl, rfl, rfl⟩

/-- Counterexample to claim C1: the initial credential acquisition in
`monitor` (`main.rs` line 106) is followed by `.unwrap()`; its failure
panics the supervisor, so a credential-acquisition failure does stop the
monitoring of the room — subsequent successful acquisitions are never
reached. -/
theorem initial_creds_failure_stops_monitoring :
    monitorStep MonPhase.initialAcquire MonEvent.credsFail = (MonPhase.panicked, 0)
    ∧ monitorRun MonPhase.initialAcquire
        [MonEvent.credsFail, MonEvent.credsOk, MonEvent.credsOk] = MonPhase.panicked :=
  ⟨rfl, rfl⟩

/-- Claim C1 as amended: inside the re-acquisition loop a credential
failure waits the fixed 10-second interval and retries indefinitely, but
the initial acquisition at supervisor startup is unwrapped, and a failure
there panics and permanently stops the room's monitoring. -/
theorem reacquire_retries_with_delay :
    (∀ n, monitorRun MonPhase.reacquire (List.replicate n MonEvent.credsFail)
        = MonPhase.reacquire)
    ∧ monitorStep MonPhase.reacquire MonEvent.credsFail = (MonPhase.reacquire, 10)
    ∧ monitorStep MonPhase.initialAcquire MonEvent.credsFail = (MonPhase.panicked, 0) := by
  refine ⟨?_, rfl, rfl⟩
  intro n
  induction n with
  | zero => rfl
  | succ n ih => simpa [monitorRun, List.replicate_succ, monitorStep] using ih

/-- Counterexample to claim C2: a failed `AcSocket::new` makes the
supervisor `break` out of its loop (`main.rs` line 114); the room's
monitoring loop terminates instead of returning to credential
acquisition, and later successes change nothing. -/
theorem open_failure_breaks_loop :
    monitorStep MonPhase.openSession MonEvent.openFail = (MonPhase.stopped, 0)
    ∧ monitorRun MonPhase.openSession
        [MonEvent.openFail, MonEvent.credsOk, MonEvent.openOk] = MonPhase.stopped :=
  ⟨rfl, rfl⟩

/-- Claim C2 as amended: if opening the protocol session fails, the
supervisor logs the failure and breaks out of the monitoring loop,
permanently terminating the room's monitoring; it never returns to the
credential-acquisition step. -/
theorem open_failure_terminates_monitoring :
    monitorStep MonPhase.openSession MonEvent.openFail = (MonPhase.stopped, 0)
    ∧ (∀ evs, monitorRun MonPhase.stopped evs = MonPhase.stopped) := by
  refine ⟨rfl, ?_⟩
  intro evs
  induction evs with
  | nil => rfl
  | cons ev rest ih => simpa [monitorRun, monitorStep] using ih

theorem listenGo_succeeded_iff (evs : List TEvent) :
    ∀ (st : Status) (e : DbEntry),
      ((listenGo evs st e).1 = ListenOutcome.succeeded
        ↔ ((listenGo evs st e).2.1 = Status.Open ∨ (listenGo evs st e).2.1 = Status.Blocked)) := by
  induction evs with
  | nil =>
    intro st e
    cases st <;> simp [listenGo]
  | cons ev rest ih =>
    intro st e
    cases ev with
    | errFrame => cases st <;> simp [listenGo]
    | msg s =>
      cases st with
      | Open => simp [listenGo]
      | Blocked => simp [listenGo]
      | Closed =>
        cases h : Rpc.new s with
        | err er => simpa [listenGo, h] using ih Status.Closed e
        | panicked => simp [listenGo, h]
        | ok r =>
          cases hb : r.is_heartbeat with
          | true => simpa [listenGo, h, hb] using ih Status.Closed e
          | false =>
            cases ht : r.is_timeout with
            | true => simp [listenGo, h, hb, ht]
            | false =>
              simpa [listenGo, h, hb, ht] using
                ih (r.update Status.Closed) (e.set_status (r.update Status.Closed))
      | Pending =>
        cases h : Rpc.new s with
        | err er => simpa [listenGo, h] using ih Status.Pending e
        | panicked => simp [listenGo, h]
        | ok r =>
          cases hb : r.is_heartbeat with
          | true => simpa [listenGo, h, hb] using ih Status.Pending e
          | false =>
            cases ht : r.is_timeout with
            | true => simp [listenGo, h, hb, ht]
            | false =>
              simpa [listenGo, h, hb, ht] using
                ih (r.update Status.Pending) (e.set_status (r.update Status.Pending))

/-- Claim C8: `AcSocket::listen` returns true ("listen succeeded") exactly
when the tracked room status has reached Open or Blocked; it returns false
("listen failed") when the transport ends, on a transport error frame, and
on a `connectionTimedOut` command; interpreter errors and heartbeats never
end the loop. -/
theorem listen_outcome_characterization (st : Status) (e : DbEntry)
    (rest : List TEvent) (s : String)
    (h : st = Status.Pending ∨ st = Status.Closed) :
    (∀ evs e0, ((listen evs e0).1 = ListenOutcome.succeeded
        ↔ ((listen evs e0).2.1 = Status.Open ∨ (listen evs e0).2.1 = Status.Blocked)))
    ∧ listenGo [] st e = (ListenOutcome.failed, st, e)
    ∧ listenGo (TEvent.errFrame :: rest) st e = (ListenOutcome.failed, st, e)
    ∧ (∀ r, Rpc.new s = RpcResult.ok r → r.is_timeout = true →
        listenGo (TEvent.msg s :: rest) st e = (ListenOutcome.failed, st, e))
    ∧ (∀ er, Rpc.new s = RpcResult.err er →
        listenGo (TEvent.msg s :: rest) st e = listenGo rest st e)
    ∧ (∀ r, Rpc.new s = RpcResult.ok r → r.is_heartbeat = true →
        listenGo (TEvent.msg s :: rest) st e = listenGo rest st e) := by
  refine ⟨fun evs e0 => listenGo_succeeded_iff evs Status.Pending e0, ?_, ?_, ?_, ?_, ?_⟩
  · rcases h with h | h <;> subst h <;> rfl
  · rcases h with h | h <;> subst h <;> rfl
  · intro r hr ht
    have hcmd : r.cmd = "connectionTimedOut" := by
      have := ht
      simp [Rpc.is_timeout] at this
      exact this
    have hb : r.is_heartbeat = false := by
      simp [Rpc.is_heartbeat, hcmd]
    rcases h with h | h <;> subst h <;> simp [listenGo, hr, hb, ht]
  · intro er her
    rcases h with h | h <;> subst h <;> simp [listenGo, her]
  · intro r hr hb
    rcases h with h | h <;> subst h <;> simp [listenGo, hr, hb]

/-- Witness for C8: from a Pending room, a `connectionTimedOut` command
message ends the loop with "listen failed" and an unchanged status. -/
theorem listen_outcome_characterization_witness :
    listenGo [TEvent.msg timeoutMsg] Status.Pending (DbEntry.mk Status.Pending 0)
      = (ListenOutcome.failed, Status.Pending, DbEntry.mk Status.Pending 0) := by
  have h := listen_outcome_characterization Status.Pending (DbEntry.mk Status.Pending 0)
    [] timeoutMsg (Or.inl rfl)
  exact h.2.2.2.1 (Rpc.mk "connectionTimedOut") (by rfl) (by rfl)

/-- Claim C10: a well-formed `onCommand`/`loginHandler` message whose
nested command string is `heartbeat` yields the same envelope as the plain
heartbeat message, so the listen loop classifies it as a heartbeat and its
processing is identical to skipping the message: no status update and no
loop exit. -/
theorem nested_heartbeat_like_wire_heartbeat (rest : List TEvent) (st : Status) (e : DbEntry) :
    Rpc.new hbNestedMsg = RpcResult.ok (Rpc.mk "heartbeat")
    ∧ Rpc.new hbNestedMsg = Rpc.new hbWireMsg
    ∧ listenGo (TEvent.msg hbNestedMsg :: rest) st e
        = listenGo (TEvent.msg hbWireMsg :: rest) st e
    ∧ listenGo (TEvent.msg hbNestedMsg :: rest) st e = listenGo rest st e := by
  have h1 : Rpc.new hbNestedMsg = RpcResult.ok (Rpc.mk "heartbeat") := rfl
  have h2 : Rpc.new hbWireMsg = RpcResult.ok (Rpc.mk "heartbeat") := rfl
  have hhb : (Rpc.mk "heartbeat").is_heartbeat = true := rfl
  refine ⟨h1, h1.trans h2.symm, ?_, ?_⟩
  · cases st <;> simp [listenGo, h1, h2, hhb]
  · cases st with
    | Open => cases rest <;> simp [listenGo]
    | Blocked => cases rest <;> simp [listenGo]
    | Closed => simp [listenGo, h1, hhb]
    | Pending => simp [listenGo, h1, hhb]

/-- Counterexample to claim C4: on the handshake response `42` — a message
that cannot be parsed as a structured object — `AcSocket::new` hits the
`panic!` arm instead of failing with `UnsuccessfulWs`, and on an
unparsable response it propagates the `json::parse` error, a different
error kind. -/
theorem handshake_not_always_unsuccessful :
    handshakeCheck "42" = HsOutcome.panicked
    ∧ handshakeCheck "nonsense" = HsOutcome.errParse :=
  ⟨rfl, rfl⟩

/-- Claim C4 as amended: `AcSocket::new` fails with `UnsuccessfulWs`
exactly when the response parses as a JSON object whose nested
`status.code` field, read as a string, differs from the success token; a
response that fails to parse propagates the JSON parse error instead, and
a response that parses to a non-object value panics. -/
theorem handshake_outcomes (s : String) :
    (jsonParse s = none → handshakeCheck s = HsOutcome.errParse)
    ∧ (∀ o, jsonParse s = some (Json.obj o) →
        (handshakeCheck s = HsOutcome.errUnsuccessfulWs
          ↔ ¬ statusCode o = some "NetConnection.Connect.Success"))
    ∧ (∀ j, jsonParse s = some j → j.isObj = false →
        handshakeCheck s = HsOutcome.panicked) := by
  refine ⟨?_, ?_, ?_⟩
  · intro h
    simp [handshakeCheck, h]
  · intro o h
    by_cases hc : statusCode o = some "NetConnection.Connect.Success"
    · simp [handshakeCheck, h, hc]
    · simp [handshakeCheck, h, hc]
  · intro j h hio
    cases j <;> simp_all [handshakeCheck, Json.isObj]

/-- Witness for C4 as amended: a parsed object whose `status.code` is the
string `x` makes the handshake fail with `UnsuccessfulWs`. -/
theorem handshake_outcomes_witness :
    handshakeCheck "\x7b\"status\":\x7b\"code\":\"x\"\x7d\x7d" = HsOutcome.errUnsuccessfulWs := by
  have h := (handshake_outcomes "\x7b\"status\":\x7b\"code\":\"x\"\x7d\x7d").2.1
    [("status", Json.obj [("code", Json.str "x")])] (by rfl)
  exact h.mpr (by simp [statusCode, oGet, Json.asStr])

/-- Counterexample to claim C5: on a well-formed `onCommand`/`loginHandler`
message whose nested `params.arg_0.command` field is the number `42`,
`Rpc::new` reaches `.as_str().unwrap()` on a non-string value and panics
instead of returning an error. -/
theorem rpc_new_panics_on_nonstring_command :
    Rpc.new numCmdMsg = RpcResult.panicked := rfl

/-- Claim C5 as amended: the interpreter returns an envelope or one of the
specified error kinds for every input, except that it panics when the
message is an `onCommand`/`loginHandler` message whose nested
`params.arg_0.command` field is present but is not a string: every panic
of `Rpc::new` has exactly that shape. -/
theorem rpc_new_panic_shape (s : String) (hp : Rpc.new s = RpcResult.panicked) :
    topField s "method" = some (Json.str "onCommand")
    ∧ topField s "command" = some (Json.str "loginHandler")
    ∧ (nestedCommandField s).isSome = true
    ∧ (nestedCommandField s).bind Json.asStr = none := by
  unfold Rpc.new at hp
  cases he : s.isEmpty with
  | true => simp [he] at hp
  | false =>
    simp [he] at hp
    cases hj : jsonParse s with
    | none => simp [hj] at hp
    | some j =>
      simp [hj] at hp
      cases j with
      | null => simp [rpcOfJson] at hp
      | bool b => simp [rpcOfJson] at hp
      | num n => simp [rpcOfJson] at hp
      | str t => simp [rpcOfJson] at hp
      | arr xs => simp [rpcOfJson] at hp
      | obj o =>
        simp only [rpcOfJson] at hp
        cases hm : oGet o "method" with
        | none => simp [hm] at hp
        | some m =>
          simp only [hm] at hp
          cases hh : jsonEqStr m "heartbeat" with
          | true => simp [hh] at hp
          | false =>
            simp [hh] at hp
            cases ho : jsonEqStr m "onCommand" with
            | false => simp [ho] at hp
            | true =>
              simp [ho] at hp
              cases hc : oGet o "command" with
              | none => simp [hc] at hp
              | some c =>
                simp only [hc] at hp
                cases hl : jsonEqStr c "loginHandler" with
                | false => simp [hl] at hp
                | true =>
                  simp [hl] at hp
                  cases hpm : oGet o "params" with
                  | none => simp [hpm] at hp
                  | some p =>
                    simp only [hpm] at hp
                    cases p with
                    | null => simp at hp
                    | bool b => simp at hp
                    | num n => simp at hp
                    | str t => simp at hp
                    | arr xs => simp at hp
                    | obj po =>
                      simp only [] at hp
                      cases ha : oGet po "arg_0" with
                      | none => simp [ha] at hp
                      | some a =>
                        simp only [ha] at hp
                        cases a with
                        | null => simp at hp
                        | bool b => simp at hp
                        | num n => simp at hp
                        | str t => simp at hp
                        | arr xs => simp at hp
                        | obj ao =>
                          simp only [] at hp
                          cases hv : oGet ao "command" with
                          | none => simp [hv] at hp
                          | some v =>
                            simp only [hv] at hp
                            cases hs : v.asStr with
                            | some t => simp [hs] at hp
                            | none =>
                              have hm2 : m = Json.str "onCommand" := by
                                cases m with
                                | str t =>
                                  have ht : t = "onCommand" := by
                                    simpa [jsonEqStr] using ho
                                  rw [ht]
                                | null => simp [jsonEqStr] at ho
                                | bool b => simp [jsonEqStr] at ho
                                | num n => simp [jsonEqStr] at ho
                                | arr xs => simp [jsonEqStr] at ho
                                | obj oo => simp [jsonEqStr] at ho
                              have hl2 : c = Json.str "loginHandler" := by
                                cases c with
                                | str t =>
                                  have ht : t = "loginHandler" := by
                                    simpa [jsonEqStr] using hl
                                  rw [ht]
                                | null => simp [jsonEqStr] at hl
                                | bool b => simp [jsonEqStr] at hl
                                | num n => simp [jsonEqStr] at hl
                                | arr xs => simp [jsonEqStr] at hl
                                | obj oo => simp [jsonEqStr] at hl
                              refine ⟨?_, ?_, ?_, ?_⟩
                              · simp [topField, hj, hm, hm2]
                              · simp [topField, hj, hc, hl2]
                              · simp [nestedCommandField, topField, hj, hpm, ha, hv]
                              · simp [nestedCommandField, topField, hj, hpm, ha, hv, hs]

/-- Witness for C5 as amended: on the concrete panicking message, the
method is `onCommand`, the command is `loginHandler`, and the nested
command field is present but not a string. -/
theorem rpc_new_panic_shape_witness :
    topField numCmdMsg "method" = some (Json.str "onCommand")
    ∧ topField numCmdMsg "command" = some (Json.str "loginHandler")
    ∧ (nestedCommandField numCmdMsg).isSome = true
    ∧ (nestedCommandField numCmdMsg).bind Json.asStr = none :=
  rpc_new_panic_shape numCmdMsg rfl
